import Mathlib

/-!
Verification of the two allocators of this repository:
* `EarlyAllocator` — the dual-region bump allocator of
  `modules/bump_allocator/src/lib.rs`;
* `LabByteAllocator` — the pool free-list allocator of
  `labs/lab_allocator/src/lib.rs`.

`usize` is embedded as `Nat` with explicit wrap-around at `2 ^ 64`
(release-mode semantics of the Rust integer operations); the bitwise
operations of the source are embedded with `Nat.land` together with the
64-bit complement.
-/

set_option maxRecDepth 100000

/-- Word bound of the 64-bit `usize` arithmetic. -/
def W : Nat := 2 ^ 64

/-- Wrapping 64-bit addition (`usize` `+` in release mode). -/
def wadd (a b : Nat) : Nat := (a + b) % W

/-- Wrapping 64-bit subtraction (`usize` `-` in release mode). -/
def wsub (a b : Nat) : Nat := (a + (W - b % W)) % W

/-- Wrapping 64-bit multiplication (`usize` `*` in release mode). -/
def wmul (a b : Nat) : Nat := (a * b) % W

/-- 64-bit bitwise complement (`!x` on `usize`). -/
def wnot (a : Nat) : Nat := W - 1 - a % W

/-- `round_up(x, a) = a * ⌈x / a⌉`, the exact (non-wrapping) rounding the
spec describes. -/
def roundUp (x a : Nat) : Nat := a * ((x + a - 1) / a)

/-- `round_down(x, a) = a * ⌊x / a⌋`, the exact (non-wrapping) rounding the
spec describes. -/
def roundDown (x a : Nat) : Nat := a * (x / a)

/-- The aligning expression `(start + align - 1) & !(align - 1)` that both
allocators compute, transcribed with the wrapping operations. -/
def alignedStart (start align : Nat) : Nat :=
  (wsub (wadd start align) 1) &&& (wnot (wsub align 1))

/-- The single error variant the allocators return. -/
inductive AllocError where
  | NoMemory
deriving DecidableEq

deriving instance DecidableEq for Except

/-- State of the dual-region bump allocator (`EarlyAllocator<PAGE_SIZE>`):
four address cursors.  The Rust field `end` is called `end_` here. -/
structure EarlyAllocator where
  start : Nat
  b_pos : Nat
  p_pos : Nat
  end_ : Nat
deriving DecidableEq

/-- `EarlyAllocator::new()`. -/
def EarlyAllocator.new : EarlyAllocator := ⟨0, 0, 0, 0⟩

/-- `BaseAllocator::init` for the bump allocator: sets all four cursors. -/
def EarlyAllocator.init (start size : Nat) : EarlyAllocator :=
  { start := start, end_ := wadd start size, b_pos := start, p_pos := wadd start size }

/-- `BaseAllocator::add_memory` for the bump allocator: always `NoMemory`. -/
def EarlyAllocator.add_memory (s : EarlyAllocator) (_start _size : Nat) :
    Except AllocError Unit × EarlyAllocator :=
  (Except.error AllocError.NoMemory, s)

/-- `ByteAllocator::alloc` for the bump allocator.  The layout is passed as
`size`/`align`. -/
def EarlyAllocator.alloc (s : EarlyAllocator) (size align : Nat) :
    Except AllocError Nat × EarlyAllocator :=
  let alloc_start := alignedStart s.b_pos align
  let alloc_end := wadd alloc_start size
  if s.p_pos < alloc_end then (Except.error AllocError.NoMemory, s)
  else (Except.ok alloc_start, { s with b_pos := alloc_end })

/-- `ByteAllocator::dealloc` for the bump allocator: a no-op. -/
def EarlyAllocator.dealloc (s : EarlyAllocator) (_pos _size _align : Nat) :
    EarlyAllocator := s

/-- `PageAllocator::alloc_pages`.  `1 << align_pow2` is embedded as
`2 ^ (align_pow2 % 64)`, the release-mode masked shift. -/
def EarlyAllocator.alloc_pages (PAGE_SIZE : Nat) (s : EarlyAllocator)
    (num_pages align_pow2 : Nat) : Except AllocError Nat × EarlyAllocator :=
  let align := 2 ^ (align_pow2 % 64)
  let size := wmul num_pages PAGE_SIZE
  let alloc_end := s.p_pos
  let alloc_start := (wsub alloc_end size) &&& (wnot (wsub align 1))
  if alloc_start < s.b_pos ∨ alloc_end < alloc_start then
    (Except.error AllocError.NoMemory, s)
  else
    (Except.ok alloc_start, { s with p_pos := alloc_start })

/-- `PageAllocator::dealloc_pages` for the bump allocator: a no-op. -/
def EarlyAllocator.dealloc_pages (s : EarlyAllocator) (_pos _num_pages : Nat) :
    EarlyAllocator := s

/-- `ByteAllocator::total_bytes`. -/
def EarlyAllocator.total_bytes (s : EarlyAllocator) : Nat := wsub s.end_ s.start

/-- `ByteAllocator::used_bytes`. -/
def EarlyAllocator.used_bytes (s : EarlyAllocator) : Nat := wsub s.b_pos s.start

/-- `ByteAllocator::available_bytes`. -/
def EarlyAllocator.available_bytes (s : EarlyAllocator) : Nat := wsub s.p_pos s.b_pos

/-- `PageAllocator::total_pages`. -/
def EarlyAllocator.total_pages (PAGE_SIZE : Nat) (s : EarlyAllocator) : Nat :=
  wsub s.end_ s.start / PAGE_SIZE

/-- `PageAllocator::used_pages`. -/
def EarlyAllocator.used_pages (PAGE_SIZE : Nat) (s : EarlyAllocator) : Nat :=
  wsub s.end_ s.p_pos / PAGE_SIZE

/-- `PageAllocator::available_pages`. -/
def EarlyAllocator.available_pages (PAGE_SIZE : Nat) (s : EarlyAllocator) : Nat :=
  wsub s.p_pos s.b_pos / PAGE_SIZE

/-- One post-`init` call to the bump allocator: `alloc` or `alloc_pages`. -/
inductive EOp where
  | alloc (size align : Nat)
  | alloc_pages (num_pages align_pow2 : Nat)
deriving DecidableEq

/-- The state after one call (the call's result is dropped: failing calls
keep the state). -/
def estep (PAGE_SIZE : Nat) (s : EarlyAllocator) : EOp → EarlyAllocator
  | EOp.alloc size align => (s.alloc size align).2
  | EOp.alloc_pages n k => (EarlyAllocator.alloc_pages PAGE_SIZE s n k).2

/-- The state after a sequence of calls. -/
def erun (PAGE_SIZE : Nat) (s : EarlyAllocator) (ops : List EOp) : EarlyAllocator :=
  ops.foldl (estep PAGE_SIZE) s

/-- A call is overflow-safe at a state when its layout is a power-of-two
alignment and the bump arithmetic stays below `2 ^ 64`.  `alloc_pages`
needs no side condition: its range check commits only in-range cursors. -/
def SafeOp (s : EarlyAllocator) : EOp → Prop
  | EOp.alloc size align => ∃ k, k < 64 ∧ align = 2 ^ k ∧ s.b_pos + align + size ≤ 2 ^ 64
  | EOp.alloc_pages _ _ => True

/-- Every call of the sequence is overflow-safe at the state it runs in. -/
def SafeTrace (PAGE_SIZE : Nat) (s : EarlyAllocator) : List EOp → Prop
  | [] => True
  | op :: ops => SafeOp s op ∧ SafeTrace PAGE_SIZE (estep PAGE_SIZE s op) ops

/-- The cursor invariant of the spec. -/
def EInv (s : EarlyAllocator) : Prop :=
  s.start ≤ s.b_pos ∧ s.b_pos ≤ s.p_pos ∧ s.p_pos ≤ s.end_

/-- A block of the pool free-list allocator. -/
structure MemoryBlock where
  start : Nat
  size : Nat
  in_use : Bool
deriving DecidableEq

/-- State of the pool free-list allocator (`LabByteAllocator`): the block
table is the 1024-slot array of optional blocks. -/
structure LabByteAllocator where
  memory_pool_start : Nat
  memory_pool_size : Nat
  blocks : List (Option MemoryBlock)
  total_used : Nat
deriving DecidableEq

/-- `LabByteAllocator::new()`. -/
def LabByteAllocator.new : LabByteAllocator :=
  ⟨0, 0, List.replicate 1024 none, 0⟩

/-- `BaseAllocator::init` for the pool allocator: sets the pool fields and
writes slot 0; nothing else is touched. -/
def LabByteAllocator.init (s : LabByteAllocator) (start size : Nat) : LabByteAllocator :=
  { s with memory_pool_start := start, memory_pool_size := size,
           blocks := s.blocks.set 0 (some ⟨start, size, false⟩) }

/-- The `add_memory` scan: replace the first empty slot. -/
def addScan (start size : Nat) : List (Option MemoryBlock) →
    Option (List (Option MemoryBlock))
  | [] => none
  | none :: rest => some (some ⟨start, size, false⟩ :: rest)
  | some b :: rest =>
    match addScan start size rest with
    | some bl => some (some b :: bl)
    | none => none

/-- `BaseAllocator::add_memory` for the pool allocator. -/
def LabByteAllocator.add_memory (s : LabByteAllocator) (start size : Nat) :
    Except AllocError Unit × LabByteAllocator :=
  match addScan start size s.blocks with
  | some bl => (Except.ok (), { s with blocks := bl })
  | none => (Except.error AllocError.NoMemory, s)

/-- The `alloc` scan: first-fit in table order.  At the accepted slot the
block keeps its `start`, its `size` is overwritten with the requested
size and it is marked in-use; the computed remainder (`new_block` in the
source) is dropped.  Returns the aligned address and the new table. -/
def allocScan (size align : Nat) : List (Option MemoryBlock) →
    Option (Nat × List (Option MemoryBlock))
  | [] => none
  | none :: rest =>
    match allocScan size align rest with
    | some (a, bl) => some (a, none :: bl)
    | none => none
  | some b :: rest =>
    if b.in_use = false ∧ size ≤ b.size then
      if wadd (alignedStart b.start align) size ≤ wadd b.start b.size then
        some (alignedStart b.start align, some ⟨b.start, size, true⟩ :: rest)
      else
        match allocScan size align rest with
        | some (a, bl) => some (a, some b :: bl)
        | none => none
    else
      match allocScan size align rest with
      | some (a, bl) => some (a, some b :: bl)
      | none => none

/-- `ByteAllocator::alloc` for the pool allocator.  A successful scan ends
in the source with `NonNull::new(aligned_start as *mut u8).unwrap()`,
which panics when the aligned address is 0: the first component is then
`none` (the call returns no value), while the mutations the scan already
made to the table and to `total_used` stay in place. -/
def LabByteAllocator.alloc (s : LabByteAllocator) (size align : Nat) :
    Option (Except AllocError Nat) × LabByteAllocator :=
  match allocScan size align s.blocks with
  | some (a, bl) =>
    (if a = 0 then none else some (Except.ok a),
      { s with blocks := bl, total_used := wadd s.total_used size })
  | none => (some (Except.error AllocError.NoMemory), s)

/-- The `dealloc` scan: free the first in-use block whose `start` equals
the freed address. -/
def deallocScan (addr : Nat) : List (Option MemoryBlock) →
    Option (List (Option MemoryBlock))
  | [] => none
  | none :: rest =>
    match deallocScan addr rest with
    | some bl => some (none :: bl)
    | none => none
  | some b :: rest =>
    if b.start = addr ∧ b.in_use = true then
      some (some ⟨b.start, b.size, false⟩ :: rest)
    else
      match deallocScan addr rest with
      | some bl => some (some b :: bl)
      | none => none

/-- `ByteAllocator::dealloc` for the pool allocator; the layout is passed
as its `size` (its alignment is unused by the source). -/
def LabByteAllocator.dealloc (s : LabByteAllocator) (addr size : Nat) : LabByteAllocator :=
  match deallocScan addr s.blocks with
  | some bl => { s with blocks := bl, total_used := wsub s.total_used size }
  | none => s

/-- `ByteAllocator::total_bytes` for the pool allocator. -/
def LabByteAllocator.total_bytes (s : LabByteAllocator) : Nat := s.memory_pool_size

/-- `ByteAllocator::used_bytes` for the pool allocator. -/
def LabByteAllocator.used_bytes (s : LabByteAllocator) : Nat := s.total_used

/-- `ByteAllocator::available_bytes` for the pool allocator:
`memory_pool_size - total_used` with the wrapping subtraction. -/
def LabByteAllocator.available_bytes (s : LabByteAllocator) : Nat :=
  wsub s.memory_pool_size s.total_used

/-- The source's acceptance test at one block, with its wrapping
arithmetic: free, large enough, and the aligned request fits. -/
def Accepts (size align : Nat) (b : MemoryBlock) : Prop :=
  b.in_use = false ∧ size ≤ b.size ∧
    wadd (alignedStart b.start align) size ≤ wadd b.start b.size

instance Accepts.dec (size align : Nat) (b : MemoryBlock) : Decidable (Accepts size align b) :=
  inferInstanceAs (Decidable (_ ∧ _ ∧ _))

/-- The acceptance test lifted to a table slot. -/
def slotAccepts (size align : Nat) : Option MemoryBlock → Prop
  | none => False
  | some b => Accepts size align b

instance slotAccepts.dec (size align : Nat) : DecidablePred (slotAccepts size align)
  | none => isFalse fun h => h
  | some b => inferInstanceAs (Decidable (Accepts size align b))

/-- The spec's acceptance test at one block, in exact arithmetic:
free, large enough, and `round_up(start, align) + size ≤ start + size`. -/
def blockFits (size align : Nat) (b : MemoryBlock) : Prop :=
  b.in_use = false ∧ size ≤ b.size ∧
    roundUp b.start align + size ≤ b.start + b.size

instance blockFits.dec (size align : Nat) (b : MemoryBlock) : Decidable (blockFits size align b) :=
  inferInstanceAs (Decidable (_ ∧ _ ∧ _))

/-- The exact acceptance test lifted to a table slot. -/
def slotFits (size align : Nat) : Option MemoryBlock → Prop
  | none => False
  | some b => blockFits size align b

instance slotFits.dec (size align : Nat) : DecidablePred (slotFits size align)
  | none => isFalse fun h => h
  | some b => inferInstanceAs (Decidable (blockFits size align b))

/-- A slot holds no in-use block starting at `addr` (so `dealloc addr`
ignores it). -/
def slotNoMatch (addr : Nat) : Option MemoryBlock → Prop
  | none => True
  | some b => b.in_use = true → b.start ≠ addr

instance slotNoMatch.dec (addr : Nat) : DecidablePred (slotNoMatch addr)
  | none => isTrue trivial
  | some b => inferInstanceAs (Decidable (b.in_use = true → b.start ≠ addr))

/-- Machine-realistic bound on a slot for a given request: the block and
the aligned request stay below `2 ^ 64`. -/
def slotBounded (size align : Nat) : Option MemoryBlock → Prop
  | none => True
  | some b => b.start + b.size < 2 ^ 64 ∧ b.start + align + size ≤ 2 ^ 64

instance slotBounded.dec (size align : Nat) : DecidablePred (slotBounded size align)
  | none => isTrue trivial
  | some b => inferInstanceAs (Decidable (b.start + b.size < 2 ^ 64 ∧ b.start + align + size ≤ 2 ^ 64))

theorem W_eq : W = 18446744073709551616 := by norm_num [W]

theorem wadd_lt (a b : Nat) : wadd a b < W := Nat.mod_lt _ (by rw [W_eq]; omega)

theorem wsub_lt (a b : Nat) : wsub a b < W := Nat.mod_lt _ (by rw [W_eq]; omega)

theorem wadd_eq_of_lt {a b : Nat} (h : a + b < W) : wadd a b = a + b := by
  simp only [wadd, W_eq] at *; omega

theorem wsub_eq_of_le {a b : Nat} (h1 : b ≤ a) (h2 : a < W) : wsub a b = a - b := by
  simp only [wsub, W_eq] at *; omega

theorem wsub_wadd_one {x a : Nat} (h1 : 1 ≤ x + a) (h2 : x + a ≤ W) :
    wsub (wadd x a) 1 = x + a - 1 := by
  simp only [wadd, wsub, W_eq] at *; omega

theorem wnot_of_lt {a : Nat} (h : a < W) : wnot a = W - 1 - a := by
  simp only [wnot, W_eq] at *; omega

theorem two_pow_lt_W {k : Nat} (hk : k < 64) : 2 ^ k < W := by
  have : (2 : Nat) ^ k < 2 ^ 64 := Nat.pow_lt_pow_right (by norm_num) hk
  simpa [W] using this

/-- The 64-bit mask `!(2^k - 1)` clears the low `k` bits: on arguments
below `2 ^ 64` the bitwise-and computes the multiple-of-`2^k` round-down. -/
theorem land_mask (k y : Nat) (hk : k ≤ 64) (hy : y < 2 ^ 64) :
    y &&& (2 ^ 64 - 2 ^ k) = 2 ^ k * (y / 2 ^ k) := by
  have hmask : 2 ^ 64 - 2 ^ k = (2 ^ (64 - k) - 1) <<< k := by
    rw [Nat.shiftLeft_eq, Nat.sub_mul, one_mul, ← Nat.pow_add]
    congr 2
    omega
  have hrhs : 2 ^ k * (y / 2 ^ k) = (y >>> k) <<< k := by
    rw [Nat.shiftRight_eq_div_pow, Nat.shiftLeft_eq, Nat.mul_comm]
  rw [hmask, hrhs]
  apply Nat.eq_of_testBit_eq
  intro i
  rw [Nat.testBit_land, Nat.testBit_shiftLeft, Nat.testBit_shiftLeft,
    Nat.testBit_shiftRight, Nat.testBit_two_pow_sub_one]
  by_cases hik : k ≤ i
  · by_cases hi64 : i < 64
    · have h1 : k + (i - k) = i := by omega
      simp [hik, hi64, h1, ge_iff_le, Nat.lt_sub_iff_add_lt]
    · have hfalse : y.testBit i = false :=
        Nat.testBit_lt_two_pow (Nat.lt_of_lt_of_le hy (Nat.pow_le_pow_right (by norm_num) (by omega)))
      have h1 : k + (i - k) = i := by omega
      simp [hik, ge_iff_le, h1, hfalse]
  · simp [hik, ge_iff_le]

theorem le_roundUp (x a : Nat) (ha : 0 < a) : x ≤ roundUp x a := by
  have h := Nat.div_add_mod (x + a - 1) a
  have hr : (x + a - 1) % a < a := Nat.mod_lt _ ha
  simp only [roundUp]
  omega

theorem roundUp_le (x a : Nat) (_ha : 0 < a) : roundUp x a ≤ x + a - 1 := by
  have h := Nat.div_add_mod (x + a - 1) a
  simp only [roundUp]
  omega

theorem roundDown_le (x a : Nat) : roundDown x a ≤ x := by
  simp only [roundDown]
  exact Nat.mul_div_le x a

/-- On a power-of-two alignment and without 64-bit overflow, the source's
`(x + align - 1) & !(align - 1)` is exactly `round_up(x, align)`. -/
theorem alignedStart_pow (x k : Nat) (hk : k < 64) (hx : x + 2 ^ k ≤ W) :
    alignedStart x (2 ^ k) = roundUp x (2 ^ k) := by
  have h2k : 0 < 2 ^ k := Nat.pos_pow_of_pos _ (by norm_num)
  have h2kW : 2 ^ k < W := two_pow_lt_W hk
  have h1 : wsub (wadd x (2 ^ k)) 1 = x + 2 ^ k - 1 := wsub_wadd_one (by omega) hx
  have h2 : wsub (2 ^ k) 1 = 2 ^ k - 1 := wsub_eq_of_le (by omega) h2kW
  have h3 : wnot (2 ^ k - 1) = W - 2 ^ k := by
    rw [wnot_of_lt (by omega)]; omega
  have h4 : x + 2 ^ k - 1 < 2 ^ 64 := by
    have : W = 2 ^ 64 := rfl
    omega
  rw [alignedStart, h1, h2, h3]
  show (x + 2 ^ k - 1) &&& (2 ^ 64 - 2 ^ k) = _
  rw [land_mask k _ (by omega) h4]
  rfl

/-- On a power-of-two alignment, `y & !(align - 1)` for `y < 2^64` is
exactly `round_down(y, align)`. -/
theorem land_roundDown (y k : Nat) (hk : k < 64) (hy : y < W) :
    y &&& (wnot (wsub (2 ^ k) 1)) = roundDown y (2 ^ k) := by
  have h2k : 0 < 2 ^ k := Nat.pos_pow_of_pos _ (by norm_num)
  have h2kW : 2 ^ k < W := two_pow_lt_W hk
  have h2 : wsub (2 ^ k) 1 = 2 ^ k - 1 := wsub_eq_of_le (by omega) h2kW
  have h3 : wnot (2 ^ k - 1) = W - 2 ^ k := by
    rw [wnot_of_lt (by omega)]; omega
  rw [h2, h3]
  show y &&& (2 ^ 64 - 2 ^ k) = _
  rw [land_mask k _ (by omega) hy]
  rfl

/-- One overflow-safe call preserves the cursor invariant, moves `b_pos`
only up and `p_pos` only down, and never touches `start`/`end`. -/
theorem estep_safe (PAGE_SIZE : Nat) (s : EarlyAllocator) (op : EOp)
    (hI : EInv s) (hS : SafeOp s op) :
    EInv (estep PAGE_SIZE s op) ∧ s.b_pos ≤ (estep PAGE_SIZE s op).b_pos ∧
    (estep PAGE_SIZE s op).p_pos ≤ s.p_pos ∧
    (estep PAGE_SIZE s op).start = s.start ∧ (estep PAGE_SIZE s op).end_ = s.end_ := by
  obtain ⟨hI1, hI2, hI3⟩ := hI
  cases op with
  | alloc size align =>
    obtain ⟨k, hk, rfl, hsum⟩ := hS
    have h2k : 0 < 2 ^ k := Nat.pos_pow_of_pos _ (by norm_num)
    have hWeq : W = 2 ^ 64 := rfl
    have hA : alignedStart s.b_pos (2 ^ k) = roundUp s.b_pos (2 ^ k) :=
      alignedStart_pow _ _ hk (by omega)
    have hup1 : s.b_pos ≤ roundUp s.b_pos (2 ^ k) := le_roundUp _ _ h2k
    have hup2 : roundUp s.b_pos (2 ^ k) ≤ s.b_pos + 2 ^ k - 1 := roundUp_le _ _ h2k
    have hend : wadd (alignedStart s.b_pos (2 ^ k)) size =
        roundUp s.b_pos (2 ^ k) + size := by
      rw [hA]; exact wadd_eq_of_lt (by omega)
    simp only [estep, EarlyAllocator.alloc, hend]
    by_cases hfit : s.p_pos < roundUp s.b_pos (2 ^ k) + size
    · rw [if_pos hfit]
      exact ⟨⟨hI1, hI2, hI3⟩, le_refl _, le_refl _, rfl, rfl⟩
    · rw [if_neg hfit]
      push_neg at hfit
      refine ⟨⟨?_, ?_, ?_⟩, ?_, ?_, rfl, rfl⟩
      · show s.start ≤ roundUp s.b_pos (2 ^ k) + size
        omega
      · show roundUp s.b_pos (2 ^ k) + size ≤ s.p_pos
        omega
      · show s.p_pos ≤ s.end_
        exact hI3
      · show s.b_pos ≤ roundUp s.b_pos (2 ^ k) + size
        omega
      · show s.p_pos ≤ s.p_pos
        exact le_refl _
  | alloc_pages n k =>
    simp only [estep, EarlyAllocator.alloc_pages]
    by_cases hfail :
        (wsub s.p_pos (wmul n PAGE_SIZE)) &&& (wnot (wsub (2 ^ (k % 64)) 1)) < s.b_pos ∨
        s.p_pos < (wsub s.p_pos (wmul n PAGE_SIZE)) &&& (wnot (wsub (2 ^ (k % 64)) 1))
    · rw [if_pos hfail]
      exact ⟨⟨hI1, hI2, hI3⟩, le_refl _, le_refl _, rfl, rfl⟩
    · rw [if_neg hfail]
      push_neg at hfail
      exact ⟨⟨hI1, hfail.1, le_trans hfail.2 hI3⟩, le_refl _, hfail.2, rfl, rfl⟩

/-- Safe sequences preserve the invariant and the cursor monotonicity. -/
theorem erun_safe (PAGE_SIZE : Nat) (s : EarlyAllocator) (ops : List EOp)
    (hI : EInv s) (hS : SafeTrace PAGE_SIZE s ops) :
    EInv (erun PAGE_SIZE s ops) ∧ s.b_pos ≤ (erun PAGE_SIZE s ops).b_pos ∧
    (erun PAGE_SIZE s ops).p_pos ≤ s.p_pos ∧
    (erun PAGE_SIZE s ops).start = s.start ∧ (erun PAGE_SIZE s ops).end_ = s.end_ := by
  induction ops generalizing s with
  | nil => exact ⟨hI, le_refl _, le_refl _, rfl, rfl⟩
  | cons op ops ih =>
    obtain ⟨hop, htr⟩ := hS
    obtain ⟨h1, h2, h3, h4, h5⟩ := estep_safe PAGE_SIZE s op hI hop
    obtain ⟨g1, g2, g3, g4, g5⟩ := ih (estep PAGE_SIZE s op) h1 htr
    have herun : erun PAGE_SIZE s (op :: ops) = erun PAGE_SIZE (estep PAGE_SIZE s op) ops :=
      List.foldl_cons _ _
    rw [herun]
    exact ⟨g1, le_trans h2 g2, le_trans g3 h3, g4.trans h4, g5.trans h5⟩

/-- A safe trace splits into a safe prefix and a safe suffix. -/
theorem safeTrace_append (PAGE_SIZE : Nat) (s : EarlyAllocator) (l1 l2 : List EOp)
    (h : SafeTrace PAGE_SIZE s (l1 ++ l2)) :
    SafeTrace PAGE_SIZE s l1 ∧ SafeTrace PAGE_SIZE (erun PAGE_SIZE s l1) l2 := by
  induction l1 generalizing s with
  | nil => exact ⟨trivial, h⟩
  | cons op l1 ih =>
    obtain ⟨hop, htr⟩ := h
    obtain ⟨ha, hb⟩ := ih (estep PAGE_SIZE s op) htr
    have herun : erun PAGE_SIZE s (op :: l1) = erun PAGE_SIZE (estep PAGE_SIZE s op) l1 :=
      List.foldl_cons _ _
    exact ⟨⟨hop, ha⟩, by rw [herun]; exact hb⟩

/-- If no slot passes the source's acceptance test, the `alloc` scan finds
nothing. -/
theorem allocScan_eq_none (size align : Nat) (bs : List (Option MemoryBlock))
    (h : ∀ o ∈ bs, ¬ slotAccepts size align o) : allocScan size align bs = none := by
  induction bs with
  | nil => rfl
  | cons o rest ih =>
    have hrest : allocScan size align rest = none :=
      ih fun o ho => h o (List.mem_cons_of_mem _ ho)
    have hhead : ¬ slotAccepts size align o := h o (List.mem_cons_self _ _)
    cases o with
    | none => simp [allocScan, hrest]
    | some b =>
      simp only [allocScan]
      by_cases h1 : b.in_use = false ∧ size ≤ b.size
      · rw [if_pos h1]
        have h2 : ¬ wadd (alignedStart b.start align) size ≤ wadd b.start b.size :=
          fun h2 => hhead ⟨h1.1, h1.2, h2⟩
        rw [if_neg h2, hrest]
      · rw [if_neg h1, hrest]

/-- If the `alloc` scan succeeds, it accepted the first passing slot:
there is a minimal index `i` whose block is accepted, the returned address
is the source's aligned address, and the new table differs from the old
one only at `i`, where the block keeps its `start`, takes the requested
`size` and is marked in-use. -/
theorem allocScan_eq_some (size align : Nat) (bs : List (Option MemoryBlock))
    (a : Nat) (bl : List (Option MemoryBlock))
    (h : allocScan size align bs = some (a, bl)) :
    ∃ i b, bs[i]? = some (some b) ∧ Accepts size align b ∧
      (∀ j o, j < i → bs[j]? = some o → ¬ slotAccepts size align o) ∧
      a = alignedStart b.start align ∧
      bl = bs.set i (some ⟨b.start, size, true⟩) := by
  induction bs generalizing bl with
  | nil => exact absurd h (by simp [allocScan])
  | cons o rest ih =>
    cases o with
    | none =>
      rw [allocScan] at h
      cases hrest : allocScan size align rest with
      | none => rw [hrest] at h; exact absurd h (by simp)
      | some p =>
        obtain ⟨a', bl'⟩ := p
        rw [hrest] at h
        simp only [Option.some.injEq, Prod.mk.injEq] at h
        obtain ⟨rfl, rfl⟩ := h
        obtain ⟨i, b, hi, hacc, hmin, ha, hbl⟩ := ih bl' hrest
        refine ⟨i + 1, b, by simpa using hi, hacc, ?_, ha, by simp [hbl]⟩
        intro j o hj ho
        cases j with
        | zero =>
          simp only [List.getElem?_cons_zero, Option.some.injEq] at ho
          subst ho
          exact fun hfalse => hfalse
        | succ j =>
          simp only [List.getElem?_cons_succ] at ho
          exact hmin j o (by omega) ho
    | some b =>
      rw [allocScan] at h
      by_cases h1 : b.in_use = false ∧ size ≤ b.size
      · rw [if_pos h1] at h
        by_cases h2 : wadd (alignedStart b.start align) size ≤ wadd b.start b.size
        · rw [if_pos h2] at h
          simp only [Option.some.injEq, Prod.mk.injEq] at h
          obtain ⟨rfl, rfl⟩ := h
          exact ⟨0, b, by simp, ⟨h1.1, h1.2, h2⟩,
            fun j o hj _ => absurd hj (Nat.not_lt_zero j), rfl, rfl⟩
        · rw [if_neg h2] at h
          cases hrest : allocScan size align rest with
          | none => rw [hrest] at h; exact absurd h (by simp)
          | some p =>
            obtain ⟨a', bl'⟩ := p
            rw [hrest] at h
            simp only [Option.some.injEq, Prod.mk.injEq] at h
            obtain ⟨rfl, rfl⟩ := h
            obtain ⟨i, b', hi, hacc, hmin, ha, hbl⟩ := ih bl' hrest
            refine ⟨i + 1, b', by simpa using hi, hacc, ?_, ha, by simp [hbl]⟩
            intro j o hj ho
            cases j with
            | zero =>
              simp only [List.getElem?_cons_zero, Option.some.injEq] at ho
              subst ho
              exact fun hAcc => h2 hAcc.2.2
            | succ j =>
              simp only [List.getElem?_cons_succ] at ho
              exact hmin j o (by omega) ho
      · rw [if_neg h1] at h
        cases hrest : allocScan size align rest with
        | none => rw [hrest] at h; exact absurd h (by simp)
        | some p =>
          obtain ⟨a', bl'⟩ := p
          rw [hrest] at h
          simp only [Option.some.injEq, Prod.mk.injEq] at h
          obtain ⟨rfl, rfl⟩ := h
          obtain ⟨i, b', hi, hacc, hmin, ha, hbl⟩ := ih bl' hrest
          refine ⟨i + 1, b', by simpa using hi, hacc, ?_, ha, by simp [hbl]⟩
          intro j o hj ho
          cases j with
          | zero =>
            simp only [List.getElem?_cons_zero, Option.some.injEq] at ho
            subst ho
            exact fun hAcc => h1 ⟨hAcc.1, hAcc.2.1⟩
          | succ j =>
            simp only [List.getElem?_cons_succ] at ho
            exact hmin j o (by omega) ho

/-- Under machine-realistic bounds the source's wrapped acceptance test at
a block agrees with the spec's exact one. -/
theorem accepts_iff_fits (size k : Nat) (b : MemoryBlock) (hk : k < 64)
    (h1 : b.start + b.size < 2 ^ 64) (h2 : b.start + 2 ^ k + size ≤ 2 ^ 64) :
    (Accepts size (2 ^ k) b ↔ blockFits size (2 ^ k) b) := by
  have hWeq : W = 2 ^ 64 := rfl
  have h2k : 0 < 2 ^ k := Nat.pos_pow_of_pos _ (by norm_num)
  have hA : alignedStart b.start (2 ^ k) = roundUp b.start (2 ^ k) :=
    alignedStart_pow _ _ hk (by omega)
  have hup : roundUp b.start (2 ^ k) ≤ b.start + 2 ^ k - 1 := roundUp_le _ _ h2k
  have he : wadd (alignedStart b.start (2 ^ k)) size = roundUp b.start (2 ^ k) + size := by
    rw [hA]; exact wadd_eq_of_lt (by omega)
  have hb : wadd b.start b.size = b.start + b.size := wadd_eq_of_lt (by omega)
  unfold Accepts blockFits
  rw [he, hb]

/-- If no slot holds an in-use block starting at `addr`, the `dealloc`
scan finds nothing. -/
theorem deallocScan_eq_none (addr : Nat) (bs : List (Option MemoryBlock))
    (h : ∀ o ∈ bs, slotNoMatch addr o) : deallocScan addr bs = none := by
  induction bs with
  | nil => rfl
  | cons o rest ih =>
    have hrest : deallocScan addr rest = none :=
      ih fun o ho => h o (List.mem_cons_of_mem _ ho)
    have hhead : slotNoMatch addr o := h o (List.mem_cons_self _ _)
    cases o with
    | none => simp [deallocScan, hrest]
    | some b =>
      simp only [deallocScan]
      have hcond : ¬ (b.start = addr ∧ b.in_use = true) :=
        fun hc => hhead hc.2 hc.1
      rw [if_neg hcond, hrest]

/-- Claim C1 (amended): after `init(start, size)` with `start + size < 2^64`,
for any sequence of `alloc`/`alloc_pages` calls in which every `alloc` has a
power-of-two alignment and stays below `2^64` (`b_pos + align + size ≤ 2^64`
at the call), the state satisfies `start ≤ b_pos ≤ p_pos ≤ end` after every
call, `b_pos` is non-decreasing, `p_pos` is non-increasing, and `start`/`end`
are never changed by `alloc`/`alloc_pages`. -/
theorem c1_cursor_invariant (PAGE_SIZE start size : Nat) (ops1 ops2 : List EOp)
    (hinit : start + size < 2 ^ 64)
    (hsafe : SafeTrace PAGE_SIZE (EarlyAllocator.init start size) (ops1 ++ ops2)) :
    EInv (erun PAGE_SIZE (EarlyAllocator.init start size) ops1) ∧
    EInv (erun PAGE_SIZE (erun PAGE_SIZE (EarlyAllocator.init start size) ops1) ops2) ∧
    (erun PAGE_SIZE (EarlyAllocator.init start size) ops1).b_pos ≤
      (erun PAGE_SIZE (erun PAGE_SIZE (EarlyAllocator.init start size) ops1) ops2).b_pos ∧
    (erun PAGE_SIZE (erun PAGE_SIZE (EarlyAllocator.init start size) ops1) ops2).p_pos ≤
      (erun PAGE_SIZE (EarlyAllocator.init start size) ops1).p_pos ∧
    (erun PAGE_SIZE (EarlyAllocator.init start size) ops1).start = start ∧
    (erun PAGE_SIZE (erun PAGE_SIZE (EarlyAllocator.init start size) ops1) ops2).start = start ∧
    (erun PAGE_SIZE (EarlyAllocator.init start size) ops1).end_ = start + size ∧
    (erun PAGE_SIZE (erun PAGE_SIZE (EarlyAllocator.init start size) ops1) ops2).end_ = start + size := by
  have hWeq : W = 2 ^ 64 := rfl
  have hadd : wadd start size = start + size := wadd_eq_of_lt (by omega)
  have hI0 : EInv (EarlyAllocator.init start size) := by
    refine ⟨le_refl _, ?_, le_refl _⟩
    show start ≤ wadd start size
    omega
  obtain ⟨hs1, hs2⟩ := safeTrace_append PAGE_SIZE _ ops1 ops2 hsafe
  obtain ⟨h1, _, _, h4, h5⟩ := erun_safe PAGE_SIZE _ ops1 hI0 hs1
  obtain ⟨g1, g2, g3, g4, g5⟩ := erun_safe PAGE_SIZE _ ops2 h1 hs2
  refine ⟨h1, g1, g2, g3, ?_, ?_, ?_, ?_⟩
  · rw [h4]; rfl
  · rw [g4, h4]; rfl
  · rw [h5]; exact hadd
  · rw [g5, h5]; exact hadd

/-- Witness for C1: a concrete safe trace — `init(0x1000, 0x2000)`, then
`alloc(8, 1)`, then `alloc_pages(1, 12)` with `PAGE_SIZE = 0x1000`. -/
theorem c1_cursor_invariant_witness :
    EInv (erun 0x1000 (EarlyAllocator.init 0x1000 0x2000) [EOp.alloc 8 1]) ∧
    EInv (erun 0x1000 (erun 0x1000 (EarlyAllocator.init 0x1000 0x2000) [EOp.alloc 8 1])
      [EOp.alloc_pages 1 12]) ∧
    (erun 0x1000 (EarlyAllocator.init 0x1000 0x2000) [EOp.alloc 8 1]).b_pos ≤
      (erun 0x1000 (erun 0x1000 (EarlyAllocator.init 0x1000 0x2000) [EOp.alloc 8 1])
        [EOp.alloc_pages 1 12]).b_pos ∧
    (erun 0x1000 (erun 0x1000 (EarlyAllocator.init 0x1000 0x2000) [EOp.alloc 8 1])
      [EOp.alloc_pages 1 12]).p_pos ≤
      (erun 0x1000 (EarlyAllocator.init 0x1000 0x2000) [EOp.alloc 8 1]).p_pos ∧
    (erun 0x1000 (EarlyAllocator.init 0x1000 0x2000) [EOp.alloc 8 1]).start = 0x1000 ∧
    (erun 0x1000 (erun 0x1000 (EarlyAllocator.init 0x1000 0x2000) [EOp.alloc 8 1])
      [EOp.alloc_pages 1 12]).start = 0x1000 ∧
    (erun 0x1000 (EarlyAllocator.init 0x1000 0x2000) [EOp.alloc 8 1]).end_ = 0x1000 + 0x2000 ∧
    (erun 0x1000 (erun 0x1000 (EarlyAllocator.init 0x1000 0x2000) [EOp.alloc 8 1])
      [EOp.alloc_pages 1 12]).end_ = 0x1000 + 0x2000 :=
  c1_cursor_invariant 0x1000 0x1000 0x2000 [EOp.alloc 8 1] [EOp.alloc_pages 1 12]
    (by norm_num)
    ⟨⟨0, by norm_num, by norm_num, by decide⟩, trivial, trivial⟩

/-- Counterexample for C1 as stated: with the code's wrapping `usize`
arithmetic, after `init(0, 2^64 - 1)` the three `Layout`-legal calls
`alloc(2^63 - 1, 1)`, `alloc(2^63 - 1, 1)`, `alloc(2^61, 2^62)` make
`b_pos` decrease (the third alloc's rounding wraps past `2^64` and
returns address 0), refuting the unrestricted non-decreasing claim. -/
theorem c1_cursor_invariant_cex :
    (erun 0x1000 (EarlyAllocator.init 0 (2 ^ 64 - 1))
        [EOp.alloc (2 ^ 63 - 1) 1, EOp.alloc (2 ^ 63 - 1) 1, EOp.alloc (2 ^ 61) (2 ^ 62)]).b_pos
      < (erun 0x1000 (EarlyAllocator.init 0 (2 ^ 64 - 1))
        [EOp.alloc (2 ^ 63 - 1) 1, EOp.alloc (2 ^ 63 - 1) 1]).b_pos := by
  decide

/-- Claim C2 (amended): for every state with `start ≤ b_pos ≤ p_pos ≤ end`
and every layout with power-of-two alignment `2^k` that does not overflow
(`b_pos + align ≤ 2^64` and `round_up(b_pos, align) + size < 2^64`),
`alloc` computes `aligned_start = round_up(b_pos, align)`; if
`aligned_start + size > p_pos` it fails with no-memory leaving the state
unchanged, otherwise it sets `b_pos = aligned_start + size`, keeps
`start`/`end`/`p_pos`, and returns `aligned_start`. -/
theorem c2_alloc_postcondition (s : EarlyAllocator) (size k : Nat)
    (_hI1 : s.start ≤ s.b_pos) (_hI2 : s.b_pos ≤ s.p_pos) (_hI3 : s.p_pos ≤ s.end_)
    (hk : k < 64) (hof1 : s.b_pos + 2 ^ k ≤ 2 ^ 64)
    (hof2 : roundUp s.b_pos (2 ^ k) + size < 2 ^ 64) :
    EarlyAllocator.alloc s size (2 ^ k) =
      if s.p_pos < roundUp s.b_pos (2 ^ k) + size then
        (Except.error AllocError.NoMemory, s)
      else
        (Except.ok (roundUp s.b_pos (2 ^ k)),
          { s with b_pos := roundUp s.b_pos (2 ^ k) + size }) := by
  have hWeq : W = 2 ^ 64 := rfl
  have hA : alignedStart s.b_pos (2 ^ k) = roundUp s.b_pos (2 ^ k) :=
    alignedStart_pow _ _ hk (by omega)
  have hend2 : wadd (roundUp s.b_pos (2 ^ k)) size = roundUp s.b_pos (2 ^ k) + size :=
    wadd_eq_of_lt (by omega)
  rw [EarlyAllocator.alloc]
  simp only [hA, hend2]

/-- Witness for C2: from `⟨0x1000, 0x1008, 0x3000, 0x3000⟩` an
`alloc(8, 16)` returns the 16-aligned `0x1010` and bumps `b_pos`. -/
theorem c2_alloc_postcondition_witness :
    EarlyAllocator.alloc ⟨0x1000, 0x1008, 0x3000, 0x3000⟩ 8 (2 ^ 4) =
      (Except.ok 0x1010, ⟨0x1000, 0x1018, 0x3000, 0x3000⟩) := by
  have h := c2_alloc_postcondition ⟨0x1000, 0x1008, 0x3000, 0x3000⟩ 8 4
    (by norm_num) (by norm_num) (by norm_num) (by norm_num) (by norm_num) (by decide)
  rw [h]
  decide

/-- Counterexample for C2 as stated: at the invariant-satisfying state
`⟨0, 2^64 - 2, 2^64 - 1, 2^64 - 1⟩` with the `Layout`-legal request
`(size 2^61, align 2^62)`, the claim's `aligned_start + size > p_pos`
demands a no-memory failure, but the code's wrapping rounding succeeds
and returns address 0. -/
theorem c2_alloc_postcondition_cex :
    2 ^ 64 - 1 < roundUp (2 ^ 64 - 2) (2 ^ 62) + 2 ^ 61 ∧
    (EarlyAllocator.alloc ⟨0, 2 ^ 64 - 2, 2 ^ 64 - 1, 2 ^ 64 - 1⟩ (2 ^ 61) (2 ^ 62)).1 =
      Except.ok 0 := by
  constructor
  · decide
  · decide

/-- Claim C3: `alloc_pages(num_pages, align_pow2)` with `align_pow2 < 64`
computes `size = num_pages * PAGE_SIZE` and
`candidate = round_down(p_pos - size, 2^align_pow2)` (the subtraction is
the wrapping `usize` one, whose underflow the `candidate > p_pos` branch
guards); it fails with no-memory leaving all cursors unchanged when
`candidate < b_pos` or `candidate > p_pos`, otherwise it sets
`p_pos = candidate`, keeps `start`/`end`/`b_pos`, and returns `candidate`. -/
theorem c3_alloc_pages_postcondition (PAGE_SIZE : Nat) (s : EarlyAllocator)
    (num_pages align_pow2 : Nat) (hk : align_pow2 < 64) :
    EarlyAllocator.alloc_pages PAGE_SIZE s num_pages align_pow2 =
      if roundDown (wsub s.p_pos (num_pages * PAGE_SIZE)) (2 ^ align_pow2) < s.b_pos ∨
          s.p_pos < roundDown (wsub s.p_pos (num_pages * PAGE_SIZE)) (2 ^ align_pow2) then
        (Except.error AllocError.NoMemory, s)
      else
        (Except.ok (roundDown (wsub s.p_pos (num_pages * PAGE_SIZE)) (2 ^ align_pow2)),
          { s with p_pos := roundDown (wsub s.p_pos (num_pages * PAGE_SIZE)) (2 ^ align_pow2) }) := by
  have hmod : align_pow2 % 64 = align_pow2 := Nat.mod_eq_of_lt hk
  have hsz : wsub s.p_pos (wmul num_pages PAGE_SIZE) =
      wsub s.p_pos (num_pages * PAGE_SIZE) := by
    simp only [wsub, wmul, Nat.mod_mod_of_dvd _ (dvd_refl W)]
  have hcand : (wsub s.p_pos (num_pages * PAGE_SIZE)) &&&
      (wnot (wsub (2 ^ align_pow2) 1)) =
      roundDown (wsub s.p_pos (num_pages * PAGE_SIZE)) (2 ^ align_pow2) :=
    land_roundDown _ _ hk (wsub_lt _ _)
  rw [EarlyAllocator.alloc_pages]
  simp only [hmod, hsz, hcand]

/-- Witness for C3: with `PAGE_SIZE = 0x1000`, one page with 4096-byte
alignment from `⟨0x1000, 0x1000, 0x3000, 0x3000⟩` returns `0x2000` and
sets `p_pos = 0x2000`. -/
theorem c3_alloc_pages_postcondition_witness :
    EarlyAllocator.alloc_pages 0x1000 ⟨0x1000, 0x1000, 0x3000, 0x3000⟩ 1 12 =
      (Except.ok 0x2000, ⟨0x1000, 0x1000, 0x2000, 0x3000⟩) := by
  have h := c3_alloc_pages_postcondition 0x1000 ⟨0x1000, 0x1000, 0x3000, 0x3000⟩ 1 12
    (by norm_num)
  rw [h]
  decide

/-- Claim C4 (amended): on every state satisfying the cursor invariant
`start ≤ b_pos ≤ p_pos ≤ end < 2^64` in which `PAGE_SIZE` divides
`end - p_pos`, the accounting identity
`used_bytes + available_bytes + used_pages * PAGE_SIZE = total_bytes`
holds.  (Reachable states can violate the divisibility — see the
counterexample — so the unconditional claim fails.) -/
theorem c4_accounting_identity (PAGE_SIZE : Nat) (s : EarlyAllocator)
    (h1 : s.start ≤ s.b_pos) (h2 : s.b_pos ≤ s.p_pos) (h3 : s.p_pos ≤ s.end_)
    (h4 : s.end_ < 2 ^ 64) (h5 : PAGE_SIZE ∣ (s.end_ - s.p_pos)) :
    EarlyAllocator.used_bytes s + EarlyAllocator.available_bytes s +
      EarlyAllocator.used_pages PAGE_SIZE s * PAGE_SIZE =
      EarlyAllocator.total_bytes s := by
  have hWeq : W = 2 ^ 64 := rfl
  have e1 : EarlyAllocator.used_bytes s = s.b_pos - s.start :=
    wsub_eq_of_le h1 (by omega)
  have e2 : EarlyAllocator.available_bytes s = s.p_pos - s.b_pos :=
    wsub_eq_of_le h2 (by omega)
  have e3 : EarlyAllocator.total_bytes s = s.end_ - s.start :=
    wsub_eq_of_le (le_trans h1 (le_trans h2 h3)) (by omega)
  have e4 : EarlyAllocator.used_pages PAGE_SIZE s = (s.end_ - s.p_pos) / PAGE_SIZE := by
    show wsub s.end_ s.p_pos / PAGE_SIZE = _
    rw [wsub_eq_of_le h3 (by omega)]
  have e5 : (s.end_ - s.p_pos) / PAGE_SIZE * PAGE_SIZE = s.end_ - s.p_pos :=
    Nat.div_mul_cancel h5
  rw [e1, e2, e3, e4, e5]
  omega

/-- Witness for C4: `⟨0x1000, 0x1008, 0x2000, 0x3000⟩` with
`PAGE_SIZE = 0x1000`: `8 + 0xFF8 + 1 * 0x1000 = 0x2000`. -/
theorem c4_accounting_identity_witness :
    EarlyAllocator.used_bytes ⟨0x1000, 0x1008, 0x2000, 0x3000⟩ +
      EarlyAllocator.available_bytes ⟨0x1000, 0x1008, 0x2000, 0x3000⟩ +
      EarlyAllocator.used_pages 0x1000 ⟨0x1000, 0x1008, 0x2000, 0x3000⟩ * 0x1000 =
      EarlyAllocator.total_bytes ⟨0x1000, 0x1008, 0x2000, 0x3000⟩ :=
  c4_accounting_identity 0x1000 ⟨0x1000, 0x1008, 0x2000, 0x3000⟩
    (by norm_num) (by norm_num) (by norm_num) (by norm_num) (by norm_num)

/-- Counterexample for C4 as stated: after `init(0x500, 0x2000)` the single
call `alloc_pages(1, 12)` rounds `p_pos` down to `0x1000`, so `end - p_pos
= 0x1500` is not a multiple of `PAGE_SIZE = 0x1000` and
`used_bytes + available_bytes + used_pages * PAGE_SIZE = 0x1B00 ≠ 0x2000
= total_bytes`. -/
theorem c4_accounting_identity_cex :
    EarlyAllocator.used_bytes
        (EarlyAllocator.alloc_pages 0x1000 (EarlyAllocator.init 0x500 0x2000) 1 12).2 +
      EarlyAllocator.available_bytes
        (EarlyAllocator.alloc_pages 0x1000 (EarlyAllocator.init 0x500 0x2000) 1 12).2 +
      EarlyAllocator.used_pages 0x1000
        (EarlyAllocator.alloc_pages 0x1000 (EarlyAllocator.init 0x500 0x2000) 1 12).2 * 0x1000 ≠
      EarlyAllocator.total_bytes
        (EarlyAllocator.alloc_pages 0x1000 (EarlyAllocator.init 0x500 0x2000) 1 12).2 := by
  decide

/-- Claim C5 (amended): `init(start, size)` sets the pool fields and
overwrites slot 0 with the free block `{start, size, in_use=false}`; all
other slots and `total_used` are left unchanged (it does *not* clear the
table or reset the counter), so only from the fresh `new()` state does it
produce the claimed single-block table with `total_used = 0`. -/
theorem c5_init_postcondition (s : LabByteAllocator) (start size : Nat) :
    (LabByteAllocator.init s start size).memory_pool_start = start ∧
    (LabByteAllocator.init s start size).memory_pool_size = size ∧
    (LabByteAllocator.init s start size).total_used = s.total_used ∧
    (∀ j, j ≠ 0 → (LabByteAllocator.init s start size).blocks[j]? = s.blocks[j]?) ∧
    (0 < s.blocks.length →
      (LabByteAllocator.init s start size).blocks[0]? = some (some ⟨start, size, false⟩)) ∧
    LabByteAllocator.init LabByteAllocator.new start size =
      ⟨start, size, some ⟨start, size, false⟩ :: List.replicate 1023 none, 0⟩ := by
  refine ⟨rfl, rfl, rfl, ?_, ?_, ?_⟩
  · intro j hj
    exact List.getElem?_set_ne (fun h => hj h.symm)
  · intro hlen
    exact List.getElem?_set_eq_of_lt _ hlen
  · show LabByteAllocator.mk _ _ ((List.replicate 1024 (Option.none)).set 0 _) _ = _
    rw [show (1024 : Nat) = 1023 + 1 from rfl, List.replicate_succ, List.set_cons_zero]
    rfl

/-- Witness for C5: the unchanged-slot and slot-0 conclusions at the fresh
state with `init(7, 9)` and `j = 1`. -/
theorem c5_init_postcondition_witness :
    (LabByteAllocator.init LabByteAllocator.new 7 9).total_used =
      LabByteAllocator.new.total_used ∧
    (LabByteAllocator.init LabByteAllocator.new 7 9).blocks[1]? =
      LabByteAllocator.new.blocks[1]? ∧
    (LabByteAllocator.init LabByteAllocator.new 7 9).blocks[0]? =
      some (some ⟨7, 9, false⟩) :=
  ⟨(c5_init_postcondition LabByteAllocator.new 7 9).2.2.1,
   (c5_init_postcondition LabByteAllocator.new 7 9).2.2.2.1 1 (by norm_num),
   (c5_init_postcondition LabByteAllocator.new 7 9).2.2.2.2.1 (by decide)⟩

/-- Counterexample for C5 as stated: starting from a reachable state that
holds a second block and `total_used = 4` (`init(0x1000, 16)`, then
`add_memory(100, 16)`, then `alloc(4, 1)`, which returns the non-null
address `0x1000`), a re-`init(200, 50)` neither clears slot 1 nor resets
`total_used` to 0. -/
theorem c5_init_postcondition_cex :
    (LabByteAllocator.alloc
        (LabByteAllocator.add_memory
          (LabByteAllocator.init LabByteAllocator.new 0x1000 16) 100 16).2 4 1).1 =
      some (Except.ok 0x1000) ∧
    (LabByteAllocator.init
        (LabByteAllocator.alloc
          (LabByteAllocator.add_memory
            (LabByteAllocator.init LabByteAllocator.new 0x1000 16) 100 16).2 4 1).2
        200 50).total_used = 4 ∧
    (LabByteAllocator.init
        (LabByteAllocator.alloc
          (LabByteAllocator.add_memory
            (LabByteAllocator.init LabByteAllocator.new 0x1000 16) 100 16).2 4 1).2
        200 50).blocks[1]? = some (some ⟨100, 16, false⟩) := by
  refine ⟨by decide, by decide, by decide⟩

/-- Claim C6 (amended): for machine-realistic tables and layouts — align
`= 2^k`, `k < 64`, every block with `start + size < 2^64` and
`start + align + size ≤ 2^64` — `alloc` scans the table in order, and
every value-returning success accepted the first slot holding a free
block `b` with `b.size ≥ size` whose aligned request fits
(`round_up(b.start, align) + size ≤ b.start + b.size`): the returned
address is `round_up(b.start, align)`, the block is marked in-use and its
`size` field overwritten with the requested size while keeping its
`start`, `size` is added to `total_used`, and nothing else is inserted
(the remainder is dropped); if no slot is accepted the call fails with
no-memory, unchanged.  (An accepted block aligning to address 0 makes the
source's `NonNull` unwrap panic instead of returning — such calls return
no value here and are asserted nothing beyond that.) -/
theorem c6_alloc_first_fit (s : LabByteAllocator) (size k : Nat) (hk : k < 64)
    (hB : ∀ o ∈ s.blocks, slotBounded size (2 ^ k) o) :
    ((∀ o ∈ s.blocks, ¬ slotFits size (2 ^ k) o) →
      LabByteAllocator.alloc s size (2 ^ k) =
        (some (Except.error AllocError.NoMemory), s)) ∧
    (∀ addr, (LabByteAllocator.alloc s size (2 ^ k)).1 = some (Except.ok addr) →
      ∃ i b, s.blocks[i]? = some (some b) ∧ blockFits size (2 ^ k) b ∧
        (∀ j o, j < i → s.blocks[j]? = some o → ¬ slotFits size (2 ^ k) o) ∧
        addr = roundUp b.start (2 ^ k) ∧
        (LabByteAllocator.alloc s size (2 ^ k)).2.blocks =
          s.blocks.set i (some ⟨b.start, size, true⟩) ∧
        (LabByteAllocator.alloc s size (2 ^ k)).2.total_used = wadd s.total_used size ∧
        (LabByteAllocator.alloc s size (2 ^ k)).2.memory_pool_start = s.memory_pool_start ∧
        (LabByteAllocator.alloc s size (2 ^ k)).2.memory_pool_size = s.memory_pool_size) := by
  constructor
  · intro hnof
    have hnone : allocScan size (2 ^ k) s.blocks = none := by
      apply allocScan_eq_none
      intro o ho
      have hb := hB o ho
      have hf := hnof o ho
      cases o with
      | none => exact fun h => h
      | some b =>
        intro hacc
        exact hf ((accepts_iff_fits size k b hk hb.1 hb.2).mp hacc)
    simp only [LabByteAllocator.alloc]
    rw [hnone]
  · intro addr h
    cases hscan : allocScan size (2 ^ k) s.blocks with
    | none =>
      rw [LabByteAllocator.alloc, hscan] at h
      exact absurd h (by simp)
    | some p =>
      obtain ⟨a, bl⟩ := p
      have hstate : (LabByteAllocator.alloc s size (2 ^ k)).2 =
          { s with blocks := bl, total_used := wadd s.total_used size } := by
        rw [LabByteAllocator.alloc, hscan]
      have haeq : a = addr := by
        rw [LabByteAllocator.alloc, hscan] at h
        by_cases ha : a = 0
        · simp [ha] at h
        · simpa [ha] using h
      obtain ⟨i, b, hi, hacc, hmin, haddr, hbl⟩ := allocScan_eq_some _ _ _ _ _ hscan
      have hbnd := hB (some b) (List.getElem?_mem hi)
      have hfits : blockFits size (2 ^ k) b :=
        (accepts_iff_fits size k b hk hbnd.1 hbnd.2).mp hacc
      have hround : alignedStart b.start (2 ^ k) = roundUp b.start (2 ^ k) :=
        alignedStart_pow _ _ hk (by
          have := hbnd.2
          have hWeq : W = 2 ^ 64 := rfl
          omega)
      refine ⟨i, b, hi, hfits, ?_, (haeq ▸ haddr).trans hround,
        by rw [hstate, hbl], by rw [hstate], by rw [hstate], by rw [hstate]⟩
      intro j o hj ho
      have hb := hB o (List.getElem?_mem ho)
      have hrej := hmin j o hj ho
      cases o with
      | none => exact fun h => h
      | some b' =>
        intro hfit
        exact hrej ((accepts_iff_fits size k b' hk hb.1 hb.2).mpr hfit)

/-- Witness for C6 (error direction): on a pool whose only block holds
`0x100` bytes, `alloc(0x200, 1)` fails with no-memory, unchanged. -/
theorem c6_alloc_first_fit_witness :
    LabByteAllocator.alloc ⟨0x1000, 0x100, [some ⟨0x1000, 0x100, false⟩], 0⟩
        0x200 (2 ^ 0) =
      (some (Except.error AllocError.NoMemory),
        ⟨0x1000, 0x100, [some ⟨0x1000, 0x100, false⟩], 0⟩) :=
  (c6_alloc_first_fit ⟨0x1000, 0x100, [some ⟨0x1000, 0x100, false⟩], 0⟩
    0x200 0 (by norm_num) (by decide)).1 (by decide)

/-- Counterexample for C6 as stated: on the reachable table
`init(2^64 - 6, 5)` the request `(size 5, align 4)` is rejected by the
claim's exact test (`round_up(2^64 - 6, 4) + 5 = 2^64 + 1` exceeds the
block end `2^64 - 1`), so the claim demands a no-memory failure; the
code's wrapping comparison `1 ≤ 2^64 - 1` accepts the block and the call
succeeds, returning the non-null address `2^64 - 4` (release-mode
wrapping; a debug build would panic on the overflowing additions —
either way, not the claimed error). -/
theorem c6_alloc_first_fit_cex :
    ¬ blockFits 5 4 ⟨2 ^ 64 - 6, 5, false⟩ ∧
    (LabByteAllocator.alloc (LabByteAllocator.init LabByteAllocator.new (2 ^ 64 - 6) 5)
        5 4).1 = some (Except.ok (2 ^ 64 - 4)) := by
  refine ⟨by decide, by decide⟩

/-- Claim C7: whenever `alloc`, `alloc_pages` or `add_memory` of either
allocator returns the no-memory error, the state after the call equals the
state before it (the bump allocator's `add_memory` always fails), the
no-op `dealloc`/`dealloc_pages` of the bump allocator never change the
state, and a pool `dealloc` whose address matches no in-use block is
silently ignored. -/
theorem c7_failure_atomicity :
    (∀ s size align, (EarlyAllocator.alloc s size align).1 = Except.error AllocError.NoMemory →
      (EarlyAllocator.alloc s size align).2 = s) ∧
    (∀ PAGE_SIZE s num_pages align_pow2,
      (EarlyAllocator.alloc_pages PAGE_SIZE s num_pages align_pow2).1 =
          Except.error AllocError.NoMemory →
      (EarlyAllocator.alloc_pages PAGE_SIZE s num_pages align_pow2).2 = s) ∧
    (∀ s start size, EarlyAllocator.add_memory s start size =
      (Except.error AllocError.NoMemory, s)) ∧
    (∀ s pos size align, EarlyAllocator.dealloc s pos size align = s) ∧
    (∀ s pos num_pages, EarlyAllocator.dealloc_pages s pos num_pages = s) ∧
    (∀ s size align, (LabByteAllocator.alloc s size align).1 =
        some (Except.error AllocError.NoMemory) →
      (LabByteAllocator.alloc s size align).2 = s) ∧
    (∀ s start size, (LabByteAllocator.add_memory s start size).1 =
        Except.error AllocError.NoMemory →
      (LabByteAllocator.add_memory s start size).2 = s) ∧
    (∀ s addr size, (∀ o ∈ s.blocks, slotNoMatch addr o) →
      LabByteAllocator.dealloc s addr size = s) := by
  refine ⟨?_, ?_, ?_, ?_, ?_, ?_, ?_, ?_⟩
  · intro s size align h
    rw [EarlyAllocator.alloc] at h ⊢
    by_cases hc : s.p_pos < wadd (alignedStart s.b_pos align) size
    · rw [if_pos hc]
    · rw [if_neg hc] at h
      exact absurd h (by simp)
  · intro PAGE_SIZE s num_pages align_pow2 h
    rw [EarlyAllocator.alloc_pages] at h ⊢
    by_cases hc : (wsub s.p_pos (wmul num_pages PAGE_SIZE)) &&&
        (wnot (wsub (2 ^ (align_pow2 % 64)) 1)) < s.b_pos ∨
        s.p_pos < (wsub s.p_pos (wmul num_pages PAGE_SIZE)) &&&
        (wnot (wsub (2 ^ (align_pow2 % 64)) 1))
    · rw [if_pos hc]
    · rw [if_neg hc] at h
      exact absurd h (by simp)
  · intro s start size
    rfl
  · intro s pos size align
    rfl
  · intro s pos num_pages
    rfl
  · intro s size align h
    cases hscan : allocScan size align s.blocks with
    | none => rw [LabByteAllocator.alloc, hscan]
    | some p =>
      obtain ⟨a, bl⟩ := p
      rw [LabByteAllocator.alloc, hscan] at h
      by_cases ha : a = 0
      · simp [ha] at h
      · simp [ha] at h
  · intro s start size h
    cases hscan : addScan start size s.blocks with
    | none => rw [LabByteAllocator.add_memory, hscan]
    | some bl =>
      rw [LabByteAllocator.add_memory, hscan] at h
      exact absurd h (by simp)
  · intro s addr size h
    rw [LabByteAllocator.dealloc, deallocScan_eq_none addr s.blocks h]

/-- Witness for C7: concrete failing and no-op calls of every kind leave
their concrete states unchanged. -/
theorem c7_failure_atomicity_witness :
    (EarlyAllocator.alloc ⟨0, 0, 0, 0⟩ 1 1).2 = ⟨0, 0, 0, 0⟩ ∧
    (EarlyAllocator.alloc_pages 0x1000 ⟨0, 0, 0, 0⟩ 1 0).2 = ⟨0, 0, 0, 0⟩ ∧
    EarlyAllocator.add_memory ⟨0, 0, 0, 0⟩ 7 7 =
      (Except.error AllocError.NoMemory, ⟨0, 0, 0, 0⟩) ∧
    EarlyAllocator.dealloc ⟨0, 0, 0, 0⟩ 1 2 3 = ⟨0, 0, 0, 0⟩ ∧
    EarlyAllocator.dealloc_pages ⟨0, 0, 0, 0⟩ 1 2 = ⟨0, 0, 0, 0⟩ ∧
    (LabByteAllocator.alloc ⟨0, 0, [], 0⟩ 1 1).2 = ⟨0, 0, [], 0⟩ ∧
    (LabByteAllocator.add_memory ⟨0, 0, [some ⟨0, 1, false⟩], 0⟩ 7 7).2 =
      ⟨0, 0, [some ⟨0, 1, false⟩], 0⟩ ∧
    LabByteAllocator.dealloc ⟨0, 0, [some ⟨5, 1, true⟩], 3⟩ 9 1 =
      ⟨0, 0, [some ⟨5, 1, true⟩], 3⟩ :=
  ⟨c7_failure_atomicity.1 ⟨0, 0, 0, 0⟩ 1 1 (by decide),
   c7_failure_atomicity.2.1 0x1000 ⟨0, 0, 0, 0⟩ 1 0 (by decide),
   c7_failure_atomicity.2.2.1 ⟨0, 0, 0, 0⟩ 7 7,
   c7_failure_atomicity.2.2.2.1 ⟨0, 0, 0, 0⟩ 1 2 3,
   c7_failure_atomicity.2.2.2.2.1 ⟨0, 0, 0, 0⟩ 1 2,
   c7_failure_atomicity.2.2.2.2.2.1 ⟨0, 0, [], 0⟩ 1 1 (by decide),
   c7_failure_atomicity.2.2.2.2.2.2.1 ⟨0, 0, [some ⟨0, 1, false⟩], 0⟩ 7 7 (by decide),
   c7_failure_atomicity.2.2.2.2.2.2.2 ⟨0, 0, [some ⟨5, 1, true⟩], 3⟩ 9 1 (by decide)⟩

/-- Claim C8: after `init(0x1000, 0x1000)`, `alloc(0x100, 1)` succeeds
returning `0x1000`; `dealloc(0x1000)` with the same layout brings
`used_bytes` back to 0; and a second `alloc(0x100, 1)` succeeds and
returns the same address `0x1000` (first-fit reuses the freed slot). -/
theorem c8_alloc_dealloc_roundtrip :
    (LabByteAllocator.alloc (LabByteAllocator.init LabByteAllocator.new 0x1000 0x1000)
        0x100 1).1 = some (Except.ok 0x1000) ∧
    LabByteAllocator.used_bytes
      (LabByteAllocator.dealloc
        (LabByteAllocator.alloc (LabByteAllocator.init LabByteAllocator.new 0x1000 0x1000)
          0x100 1).2 0x1000 0x100) = 0 ∧
    (LabByteAllocator.alloc
        (LabByteAllocator.dealloc
          (LabByteAllocator.alloc (LabByteAllocator.init LabByteAllocator.new 0x1000 0x1000)
            0x100 1).2 0x1000 0x100)
        0x100 1).1 = some (Except.ok 0x1000) := by
  refine ⟨by decide, by decide, by decide⟩

/-- Claim C9: when a pool `alloc` succeeds at address `addr` and no block
of the resulting table is an in-use block starting at `addr` (in the
claim's scenario the accepted block's stored `start` was not aligned, so
it differs from `addr`, and no other block collides), then `dealloc(addr)`
with the same layout is silently ignored: the state — in particular the
incremented `total_used` and the in-use mark — is unchanged, and the
accepted block indeed kept its original `start`. -/
theorem c9_misaligned_dealloc_leak (s : LabByteAllocator) (size align addr : Nat)
    (h1 : (LabByteAllocator.alloc s size align).1 = some (Except.ok addr))
    (h2 : ∀ o ∈ (LabByteAllocator.alloc s size align).2.blocks, slotNoMatch addr o) :
    LabByteAllocator.dealloc (LabByteAllocator.alloc s size align).2 addr size =
      (LabByteAllocator.alloc s size align).2 ∧
    (LabByteAllocator.dealloc (LabByteAllocator.alloc s size align).2 addr size).total_used =
      wadd s.total_used size ∧
    ∃ (i : Nat) (b : MemoryBlock), s.blocks[i]? = some (some b) ∧ b.start ≠ addr ∧
      (LabByteAllocator.alloc s size align).2.blocks[i]? =
        some (some ⟨b.start, size, true⟩) := by
  cases hscan : allocScan size align s.blocks with
  | none =>
    rw [LabByteAllocator.alloc, hscan] at h1
    exact absurd h1 (by simp)
  | some p =>
    obtain ⟨a, bl⟩ := p
    have hstate : (LabByteAllocator.alloc s size align).2 =
        { s with blocks := bl, total_used := wadd s.total_used size } := by
      rw [LabByteAllocator.alloc, hscan]
    obtain ⟨i, b, hi, hacc, hmin, ha2, hbl⟩ := allocScan_eq_some _ _ _ _ _ hscan
    have hlen : i < s.blocks.length := (List.getElem?_eq_some_iff.mp hi).1
    have hnew : bl[i]? = some (some ⟨b.start, size, true⟩) := by
      rw [hbl]
      exact List.getElem?_set_eq_of_lt _ hlen
    have hmem : (some (⟨b.start, size, true⟩ : MemoryBlock)) ∈
        (LabByteAllocator.alloc s size align).2.blocks := by
      rw [hstate]
      exact List.getElem?_mem hnew
    have hne : b.start ≠ addr := h2 _ hmem rfl
    have hnone : deallocScan addr (LabByteAllocator.alloc s size align).2.blocks = none :=
      deallocScan_eq_none _ _ h2
    have hd : LabByteAllocator.dealloc (LabByteAllocator.alloc s size align).2 addr size =
        (LabByteAllocator.alloc s size align).2 := by
      rw [LabByteAllocator.dealloc, hnone]
    refine ⟨hd, ?_, i, b, hi, hne, by rw [hstate]; exact hnew⟩
    rw [hd, hstate]

/-- Witness for C9: the single block starts at the 16-unaligned `0x1001`;
`alloc(8, 16)` returns `0x1010`, and `dealloc(0x1010, 8)` is ignored,
leaving the incremented `total_used` in place. -/
theorem c9_misaligned_dealloc_leak_witness :
    LabByteAllocator.dealloc
        (LabByteAllocator.alloc ⟨0x1001, 0x100, [some ⟨0x1001, 0x100, false⟩], 0⟩ 8 16).2
        0x1010 8 =
      (LabByteAllocator.alloc ⟨0x1001, 0x100, [some ⟨0x1001, 0x100, false⟩], 0⟩ 8 16).2 ∧
    (LabByteAllocator.dealloc
        (LabByteAllocator.alloc ⟨0x1001, 0x100, [some ⟨0x1001, 0x100, false⟩], 0⟩ 8 16).2
        0x1010 8).total_used = wadd 0 8 :=
  ⟨(c9_misaligned_dealloc_leak ⟨0x1001, 0x100, [some ⟨0x1001, 0x100, false⟩], 0⟩ 8 16 0x1010
      (by decide) (by decide)).1,
   (c9_misaligned_dealloc_leak ⟨0x1001, 0x100, [some ⟨0x1001, 0x100, false⟩], 0⟩ 8 16 0x1010
      (by decide) (by decide)).2.1⟩

/-- Claim C10: after `init(0x1000, 0x100)`, `add_memory(0x10000, 0x1000)`
and `alloc(0x200, 1)` (served from the added block), `total_used = 0x200`
exceeds `memory_pool_size = 0x100`, and on that state the unguarded
`memory_pool_size - total_used` of `available_bytes` underflows: the
wrapping `usize` subtraction yields `2^64 - 0x100`. -/
theorem c10_available_bytes_underflow :
    (LabByteAllocator.alloc
        (LabByteAllocator.add_memory
          (LabByteAllocator.init LabByteAllocator.new 0x1000 0x100) 0x10000 0x1000).2
        0x200 1).2.memory_pool_size <
      (LabByteAllocator.alloc
        (LabByteAllocator.add_memory
          (LabByteAllocator.init LabByteAllocator.new 0x1000 0x100) 0x10000 0x1000).2
        0x200 1).2.total_used ∧
    LabByteAllocator.available_bytes
      (LabByteAllocator.alloc
        (LabByteAllocator.add_memory
          (LabByteAllocator.init LabByteAllocator.new 0x1000 0x100) 0x10000 0x1000).2
        0x200 1).2 = 2 ^ 64 - 0x100 := by
  refine ⟨by decide, by decide⟩
